import Mathlib

/-!
Verification of the quality-review and prompt-patching pipeline
(`app/services/qa_reviewer.py`, `app/services/quality_logger.py`).

The Python services are embedded shallowly: pure computations become Lean
functions; database reads, the text-generation calls and the versioned
document store are represented by explicit environment records whose fields
hold the outcome each external call would deliver (a successful value or the
message of the raised error), so that every control-flow branch of the source
is reproduced.  Python strings are Lean `String`, timestamps are `Int`
seconds, numeric confidence scores are `Rat`.
-/

/-- Python `str.strip()`: drop whitespace at both ends (modelled with the
ASCII whitespace characters recognised by `Char.isWhitespace`). -/
def pyStrip (s : String) : String :=
  String.mk (((s.data.dropWhile Char.isWhitespace).reverse.dropWhile Char.isWhitespace).reverse)

/-- Python `str.lower()` on the ASCII range, as the character list. -/
def lowerChars (s : String) : List Char :=
  s.data.map Char.toLower

/-- Python `str.lower()` returning a `String`. -/
def lowerStr (s : String) : String :=
  String.mk (lowerChars s)

/-- Whether the character list `n` occurs at the start of `h`. -/
def charsStartWith : List Char → List Char → Bool
  | _, [] => true
  | [], _ :: _ => false
  | a :: as, b :: bs => a == b && charsStartWith as bs

/-- Whether the character list `n` occurs contiguously anywhere in `h`. -/
def charsContain (h n : List Char) : Bool :=
  match h with
  | [] => n.isEmpty
  | _ :: t => charsStartWith h n || charsContain t n

/-- Python `needle.lower() in haystack.lower()` (case-insensitive substring
test, as used on proposal text). -/
def pyInStr (needle haystack : String) : Bool :=
  charsContain (lowerChars haystack) (lowerChars needle)

/-- Decimal digit run to a natural number. -/
def digitsToNat (l : List Char) : Nat :=
  l.foldl (fun a c => 10 * a + (c.toNat - 48)) 0

/-- Python `float()` on finite decimal literals: optional sign, integer part,
optional fraction, optional signed exponent; `none` models the `ValueError`
raised on any other text.  The special spellings `inf`/`nan` and underscore
digit separators accepted by CPython are not modelled; the generation contract
asks for a plain literal such as `0.8`. -/
def parsePyFloat (s : String) : Option Rat :=
  let cs := s.data
  let signRest : Rat × List Char :=
    match cs with
    | '+' :: t => (1, t)
    | '-' :: t => (-1, t)
    | _ => (1, cs)
  let mantE := signRest.2.span (fun c => !(c == 'e' || c == 'E'))
  let expVal : Option Int :=
    match mantE.2 with
    | [] => some 0
    | _ :: et =>
      let esignRest : Int × List Char :=
        match et with
        | '+' :: t => (1, t)
        | '-' :: t => (-1, t)
        | _ => (1, et)
      if esignRest.2 ≠ [] ∧ esignRest.2.all Char.isDigit then
        some (esignRest.1 * (digitsToNat esignRest.2 : Int))
      else none
  let ipfp := mantE.1.span (fun c => !(c == '.'))
  let ip := ipfp.1
  let fp := match ipfp.2 with
    | [] => []
    | _ :: t => t
  if ip.all Char.isDigit ∧ fp.all Char.isDigit ∧ (ip ≠ [] ∨ fp ≠ []) then
    match expVal with
    | none => none
    | some e =>
      some (signRest.1 * ((digitsToNat ip : Rat) + (digitsToNat fp : Rat) / (10 : Rat) ^ fp.length)
        * (10 : Rat) ^ e)
  else none

/-- One `<change section=... change=... reason=.../>` triple extracted from the
improvement response (`section` is spelled `sectionName` because `section` is a
Lean keyword). -/
structure Change where
  sectionName : String
  changeText : String
  reason : String
deriving DecidableEq, Repr

/-- The tag contents the permissive regex scan of `_parse_improvement_xml`
extracts from the raw response text: inner text of `<should_modify>` and
`<improved_prompt>` when the tag is present, the `<change .../>` triples, and
the inner text of `<confidence>`.  The regex extraction itself is represented
by these fields; the validation stage below is `parseImprovementXml`. -/
structure ImprovementResponseTags where
  shouldModifyTag : Option String
  improvedPromptTag : Option String
  changes : List Change
  confidenceTag : Option String
deriving DecidableEq, Repr

/-- Validated result of `_parse_improvement_xml`. -/
structure ParsedImprovement where
  shouldModify : Bool
  improvedPrompt : Option String
  changesSummary : List Change
  confidence : Rat
deriving DecidableEq, Repr

/-- Validation stage of `_parse_improvement_xml`: missing `<should_modify>`
returns `none`; the flag is `strip().lower() == "true"`; the improved prompt
defaults to the empty string and is kept only when modifying; a present but
unparseable `<confidence>` makes `float()` raise, which the enclosing
`try/except` turns into `none`; an absent `<confidence>` defaults to `0.5`. -/
def parseImprovementXml (tags : ImprovementResponseTags) : Option ParsedImprovement :=
  match tags.shouldModifyTag with
  | none => none
  | some sm =>
    let shouldModify := lowerStr (pyStrip sm) == "true"
    let improvedPrompt := (tags.improvedPromptTag.map pyStrip).getD ""
    let conf : Option Rat :=
      match tags.confidenceTag with
      | some c => parsePyFloat (pyStrip c)
      | none => some (1 / 2 : Rat)
    match conf with
    | none => none
    | some confidence =>
      some { shouldModify := shouldModify
             improvedPrompt := if shouldModify then some improvedPrompt else none
             changesSummary := tags.changes
             confidence := confidence }

/-- Truthiness of an optional string field fetched from a row: Python treats
both SQL NULL and the empty string as falsy. -/
def truthyOptStr : Option String → Bool
  | none => false
  | some s => !(s == "")

/-- The configuration knobs of the reviewer (`Settings` in
`app/config/settings.py`; defaults 3 / 24 / 2). -/
structure ReviewSettings where
  qa_review_max_improvements : Nat
  qa_review_cooldown_hours : Nat
  qa_review_min_issues : Nat
deriving DecidableEq, Repr

/-- A `quality_issues` row, restricted to the columns the pipeline reads. -/
structure Issue where
  id : Nat
  issueType : String
  issueCategory : String
  severity : String
  agentName : Option String
  isResolved : Bool
deriving DecidableEq, Repr

/-- A `prompt_revisions` row as read by the cooldown query
(`_is_on_cooldown`): owner keys, creation time in seconds, rollback flag. -/
structure RevisionRow where
  tenantId : String
  agentName : String
  createdAt : Int
  isRolledBack : Bool
deriving DecidableEq, Repr

/-- The commit reference returned by the versioned document store
(`github.update_prompt`). -/
structure Commit where
  commitSha : String
  commitUrl : String
deriving DecidableEq, Repr

/-- The PromptRevision record built and stored by `_improve_agent_prompt`
(confidence and change list omitted: they are carried verbatim from the parsed
response and play no role in any verified property). -/
structure Revision where
  revisionId : Nat
  agentName : String
  originalPrompt : String
  improvedPrompt : String
  commitSha : String
  commitUrl : String
  isRolledBack : Bool
deriving DecidableEq, Repr

/-- The final message of one generation request: its stop reason and the tag
contents extracted from its text. -/
structure GenResp where
  stopReason : String
  tags : ImprovementResponseTags
deriving DecidableEq, Repr

/-- Outcomes the external collaborators deliver to one `_improve_agent_prompt`
call, in call order: the document-store read (`Except.error` is the caught
`GitHubServiceError`), the generation request (`Except.error` is an exception
escaping the call), the document-store write, and the revision-row insert
(`Except.ok` carries the returned revision id). -/
structure PatchEnv where
  getPrompt : Except String String
  gen : Except String GenResp
  updateResult : Except String Commit
  insertRevision : Except String Nat
deriving Repr

/-- Which side effects one `_improve_agent_prompt` call performed: whether the
generation request was issued, whether the document-store write was attempted
and succeeded, and whether a PromptRevision row was inserted. -/
structure PatchEffects where
  genCalled : Bool
  storeWriteAttempted : Bool
  storeWriteSucceeded : Bool
  revisionInserted : Bool
deriving DecidableEq, Repr

/-- Shallow embedding of `_improve_agent_prompt`: returns the effects plus
either the revision outcome (`Except.ok`) or the message of an exception that
escapes to the caller (`Except.error`).  Branches, in source order: unreadable
current prompt → `none`; generation raised → propagate; truncated response
(`stop_reason == "max_tokens"`) → `none`; unparseable response → `none`;
`should_modify` false or empty replacement → `none`; store write failed →
`none`; insert raised → propagate; otherwise the stored revision. -/
def improveAgentPrompt (env : PatchEnv) (agentName : String) :
    PatchEffects × Except String (Option Revision) :=
  match env.getPrompt with
  | Except.error _ => (⟨false, false, false, false⟩, Except.ok none)
  | Except.ok currentPrompt =>
    match env.gen with
    | Except.error e => (⟨true, false, false, false⟩, Except.error e)
    | Except.ok resp =>
      if resp.stopReason == "max_tokens" then
        (⟨true, false, false, false⟩, Except.ok none)
      else
        match parseImprovementXml resp.tags with
        | none => (⟨true, false, false, false⟩, Except.ok none)
        | some result =>
          if !result.shouldModify then
            (⟨true, false, false, false⟩, Except.ok none)
          else
            match result.improvedPrompt with
            | none => (⟨true, false, false, false⟩, Except.ok none)
            | some improvedPrompt =>
              if improvedPrompt == "" then
                (⟨true, false, false, false⟩, Except.ok none)
              else
                match env.updateResult with
                | Except.error _ => (⟨true, true, false, false⟩, Except.ok none)
                | Except.ok commit =>
                  match env.insertRevision with
                  | Except.error e => (⟨true, true, true, false⟩, Except.error e)
                  | Except.ok rid =>
                    (⟨true, true, true, true⟩,
                     Except.ok (some
                       { revisionId := rid
                         agentName := agentName
                         originalPrompt := currentPrompt
                         improvedPrompt := improvedPrompt
                         commitSha := commit.commitSha
                         commitUrl := commit.commitUrl
                         isRolledBack := false }))

/-- The known agent-name set of `_extract_agents_from_proposals`. -/
def knownAgents : List String :=
  ["router", "finance", "calendar", "reminder", "shopping", "vehicle", "qa"]

/-- Append an issue to its agent's group in an insertion-ordered association
list, creating the group at the end on first sight — the behaviour of the
Python dict in `_extract_agents_from_proposals`. -/
def insertIssue (acc : List (String × List Issue)) (a : String) (i : Issue) :
    List (String × List Issue) :=
  match acc with
  | [] => [(a, [i])]
  | (k, grp) :: rest =>
    if k = a then (k, grp ++ [i]) :: rest else (k, grp) :: insertIssue rest a i

/-- One grouping step of `_extract_agents_from_proposals`: an issue is added
to its agent's group only when its `agent_name` is truthy and in the known
set. -/
def byAgentStep (acc : List (String × List Issue)) (i : Issue) :
    List (String × List Issue) :=
  match i.agentName with
  | some a => if a ≠ "" ∧ a ∈ knownAgents then insertIssue acc a i else acc
  | none => acc

/-- Step 1 of `_extract_agents_from_proposals`: group the issues by agent
name, keeping only issues whose `agent_name` is truthy and in the known set. -/
def byAgent (issues : List Issue) : List (String × List Issue) :=
  issues.foldl byAgentStep []

/-- Steps 2–3 of `_extract_agents_from_proposals`: keep the agents whose
lowered name occurs in the lowered proposal text; if none matched and some
agent had issues, fall back to all grouped agents. -/
def extractAgentsFromProposals (proposals : String) (issues : List Issue) :
    List (String × List Issue) :=
  let grouped := byAgent issues
  let result := grouped.filter (fun p => pyInStr p.1 proposals)
  if result.isEmpty && !grouped.isEmpty then grouped else result

/-- Shallow embedding of `_is_on_cooldown`: the count of non-rolled-back
`prompt_revisions` rows for (tenant, agent) created at or after
`now - hours` is positive. -/
def isOnCooldown (db : List RevisionRow) (now : Int) (hours : Nat)
    (tenantId agentName : String) : Bool :=
  decide (0 < (db.filter (fun r =>
    r.tenantId == tenantId && r.agentName == agentName &&
    decide (now - (hours : Int) * 3600 ≤ r.createdAt) && r.isRolledBack == false)).length)

/-- The `hallucination`-category / `critical`-severity override of the
minimum-issue check in `_process_improvements`. -/
def hasCriticalOverride (issues : List Issue) : Bool :=
  issues.any (fun i => i.issueCategory == "hallucination" || i.severity == "critical")

/-- Everything `_process_improvements` holds fixed during one cycle: the
settings, the cycle's tenant, the current time, the `prompt_revisions` table
at cycle start, and the external-call outcomes each per-agent patch attempt
would observe. -/
structure Ctx where
  settings : ReviewSettings
  tenantId : String
  now : Int
  db : List RevisionRow
  patchEnv : String → PatchEnv

/-- Mutable state of the `_process_improvements` loop, together with the
audit trail a run leaves behind: revision records returned, the applied
counter, the agents for which a patch attempt (an `_improve_agent_prompt`
call) was made, the agents for which a document-store write was attempted,
the `prompt_revisions` rows inserted during the cycle, and the number of
generation requests issued. -/
structure SelState where
  revisions : List Revision
  improvementsApplied : Nat
  attempted : List String
  writes : List String
  newRows : List RevisionRow
  genCalls : Nat
deriving DecidableEq, Repr

/-- Initial loop state. -/
def initSelState : SelState :=
  ⟨[], 0, [], [], [], 0⟩

/-- The body of a patch attempt inside `_process_improvements`: run
`_improve_agent_prompt`, record its effects, then append the revision and
bump the counter when one was produced; an escaping exception is caught and
changes nothing further. -/
def attemptAgent (ctx : Ctx) (st : SelState) (agentName : String) : SelState :=
  let pr := improveAgentPrompt (ctx.patchEnv agentName) agentName
  let st1 : SelState :=
    { st with
      attempted := st.attempted ++ [agentName]
      writes := st.writes ++ (if pr.1.storeWriteAttempted then [agentName] else [])
      newRows := st.newRows ++
        (if pr.1.revisionInserted then [⟨ctx.tenantId, agentName, ctx.now, false⟩] else [])
      genCalls := st.genCalls + (if pr.1.genCalled then 1 else 0) }
  match pr.2 with
  | Except.ok (some r) =>
    { st1 with
      revisions := st1.revisions ++ [r]
      improvementsApplied := st1.improvementsApplied + 1 }
  | _ => st1

/-- One iteration of the `_process_improvements` loop over a candidate agent,
in source order: the cycle-budget stop, the cooldown skip (checked against the
table as it stands, start-of-cycle rows plus rows inserted meanwhile), the
minimum-issue skip with the critical/hallucination override, then the patch
attempt. -/
def processAgent (ctx : Ctx) (st : SelState) (agentName : String)
    (agentIssues : List Issue) : SelState :=
  if ctx.settings.qa_review_max_improvements ≤ st.improvementsApplied then st
  else if isOnCooldown (ctx.db ++ st.newRows) ctx.now
      ctx.settings.qa_review_cooldown_hours ctx.tenantId agentName then st
  else if agentIssues.length < ctx.settings.qa_review_min_issues ∧
      hasCriticalOverride agentIssues = false then st
  else attemptAgent ctx st agentName

/-- The `_process_improvements` loop over an explicit candidate list. -/
def processAgents (ctx : Ctx) (st : SelState)
    (candidates : List (String × List Issue)) : SelState :=
  candidates.foldl (fun s p => processAgent ctx s p.1 p.2) st

/-- Shallow embedding of `_process_improvements`. -/
def processImprovements (ctx : Ctx) (proposals : String) (issues : List Issue) :
    SelState :=
  processAgents ctx initSelState (extractAgentsFromProposals proposals issues)

/-- The observable outcome of one `run_review` cycle: the terminal status of
the cycle row, its count columns (`none` while never set, i.e. on the failed
path), the PromptRevision records created, and how many generation requests
were issued. -/
structure RunOutcome where
  status : String
  issuesAnalyzedCount : Option Nat
  improvementsAppliedCount : Option Nat
  revisions : List Revision
  genRequests : Nat
deriving DecidableEq, Repr

/-- Shallow embedding of `run_review` after the cycle row is created:
`issues` is what `_fetch_unresolved_issues` returned, and `analysisOutcome`
is the combined outcome of loading the reviewer prompt, the analysis
generation request and the `automated_fixes` section extraction —
`Except.error` when any of those raised (cycle `failed`), otherwise the
optional section text.  An empty fetch completes immediately with zero
counts; a falsy proposal text skips `_process_improvements`; otherwise the
improvement loop runs and the cycle completes with the revision count. -/
def runReview (ctx : Ctx) (issues : List Issue)
    (analysisOutcome : Except String (Option String)) : RunOutcome :=
  if issues.isEmpty then
    { status := "completed", issuesAnalyzedCount := some 0,
      improvementsAppliedCount := some 0, revisions := [], genRequests := 0 }
  else
    match analysisOutcome with
    | Except.error _ =>
      { status := "failed", issuesAnalyzedCount := none,
        improvementsAppliedCount := none, revisions := [], genRequests := 1 }
    | Except.ok automatedFixes =>
      let proposals := automatedFixes.getD ""
      let sel := if proposals == "" then initSelState
                 else processImprovements ctx proposals issues
      { status := "completed",
        issuesAnalyzedCount := some issues.length,
        improvementsAppliedCount := some sel.revisions.length,
        revisions := sel.revisions,
        genRequests := 1 + sel.genCalls }

/-- The `quality_issues` row persisted by the quality logger, restricted to
the columns `log_soft_error` determines. -/
structure PersistedIssue where
  issueType : String
  issueCategory : String
  errorMessage : String
  severity : String
  qaAnalysis : String
  qaSuggestion : String
  qaConfidence : Rat
deriving Repr

/-- Shallow embedding of `QualityLogger.log_soft_error`: the severity is
forced to `"high"` for category `"hallucination"` and to `"medium"` for
`"misinterpretation"`, otherwise the caller's argument is kept; the row is
stored with `issue_type = "soft_error"` and the analysis text doubling as the
error message. -/
def logSoftError (category qaAnalysis qaSuggestion : String) (qaConfidence : Rat)
    (severity : String) : PersistedIssue :=
  let severity := if category = "hallucination" then "high"
                  else if category = "misinterpretation" then "medium"
                  else severity
  { issueType := "soft_error"
    issueCategory := category
    errorMessage := qaAnalysis
    severity := severity
    qaAnalysis := qaAnalysis
    qaSuggestion := qaSuggestion
    qaConfidence := qaConfidence }

/-- Observable outcome of one `fix_single_issue` run: the issue's final
fix-tracking and resolution fields, whether/with what terminal state the
tracking cycle was created, and the patch attempt's effects. -/
structure FixOutcome where
  fixStatus : String
  fixError : Option String
  isResolved : Bool
  resolvedBy : Option String
  cycleCreated : Bool
  cycleStatus : Option String
  cycleCounts : Option (Nat × Nat)
  genCalled : Bool
  storeWriteAttempted : Bool
  storeWriteSucceeded : Bool
  revisionInserted : Bool
deriving DecidableEq, Repr

/-- Shallow embedding of `fix_single_issue`: `row` is what the issue fetch
returned, `penv` the external-call outcomes of the patch attempt.  Branches in
source order: missing row → failed, no cycle; falsy `agent_name` → failed with
the descriptive message, no cycle; then a cycle is created `running` and
`_improve_agent_prompt` runs — an escaping exception is caught by the outer
handler (`_fail_fix`, cycle left `running`); a `None` revision completes the
cycle as (1, 0) and fails the fix; a revision marks the cycle (1, 1) and the
issue resolved by `admin-fix`. -/
def fixSingleIssue (issueId : String) (row : Option Issue) (penv : PatchEnv) :
    FixOutcome :=
  match row with
  | none =>
    { fixStatus := "failed"
      fixError := some ("Quality issue " ++ issueId ++ " not found")
      isResolved := false, resolvedBy := none
      cycleCreated := false, cycleStatus := none, cycleCounts := none
      genCalled := false, storeWriteAttempted := false
      storeWriteSucceeded := false, revisionInserted := false }
  | some issue =>
    if truthyOptStr issue.agentName = false then
      { fixStatus := "failed"
        fixError := some "Issue has no associated agent name"
        isResolved := issue.isResolved, resolvedBy := none
        cycleCreated := false, cycleStatus := none, cycleCounts := none
        genCalled := false, storeWriteAttempted := false
        storeWriteSucceeded := false, revisionInserted := false }
    else
      let agentName := (issue.agentName).getD ""
      let pr := improveAgentPrompt penv agentName
      match pr.2 with
      | Except.error e =>
        { fixStatus := "failed", fixError := some e
          isResolved := issue.isResolved, resolvedBy := none
          cycleCreated := true, cycleStatus := some "running", cycleCounts := none
          genCalled := pr.1.genCalled
          storeWriteAttempted := pr.1.storeWriteAttempted
          storeWriteSucceeded := pr.1.storeWriteSucceeded
          revisionInserted := pr.1.revisionInserted }
      | Except.ok none =>
        { fixStatus := "failed"
          fixError := some "Claude determinó que no hay cambios necesarios en el prompt."
          isResolved := issue.isResolved, resolvedBy := none
          cycleCreated := true, cycleStatus := some "completed"
          cycleCounts := some (1, 0)
          genCalled := pr.1.genCalled
          storeWriteAttempted := pr.1.storeWriteAttempted
          storeWriteSucceeded := pr.1.storeWriteSucceeded
          revisionInserted := pr.1.revisionInserted }
      | Except.ok (some _) =>
        { fixStatus := "completed", fixError := none
          isResolved := true, resolvedBy := some "admin-fix"
          cycleCreated := true, cycleStatus := some "completed"
          cycleCounts := some (1, 1)
          genCalled := pr.1.genCalled
          storeWriteAttempted := pr.1.storeWriteAttempted
          storeWriteSucceeded := pr.1.storeWriteSucceeded
          revisionInserted := pr.1.revisionInserted }

/-- Concrete issue: two low-grade calendar issues, one hallucination, one
issue for an agent outside the known set, one agent-less issue — fixtures for
the concrete evaluations below. -/
def issueCal : Issue :=
  ⟨1, "soft_error", "incomplete_response", "low", some "calendar", false⟩

/-- Second calendar fixture issue. -/
def issueCal2 : Issue :=
  ⟨2, "soft_error", "misinterpretation", "medium", some "calendar", false⟩

/-- Hallucination fixture issue (fires the minimum-issue override). -/
def issueHall : Issue :=
  ⟨3, "soft_error", "hallucination", "high", some "finance", false⟩

/-- Fixture issue attributed to an agent outside the known set. -/
def issueGhost : Issue :=
  ⟨4, "hard_error", "api_error", "medium", some "ghost", false⟩

/-- Fixture issue with no associated agent. -/
def issueNoAgent : Issue :=
  ⟨5, "hard_error", "api_error", "low", none, false⟩

/-- Well-formed improvement-response tags (modifying, parsable confidence). -/
def tagsOk : ImprovementResponseTags :=
  ⟨some "true", some "THE IMPROVED PROMPT", [⟨"tools", "tighten", "hallucination"⟩], some "0.9"⟩

/-- Improvement-response tags whose confidence text is not a number. -/
def tagsBadConf : ImprovementResponseTags :=
  ⟨some "true", some "THE IMPROVED PROMPT", [], some "abc"⟩

/-- Complete generation response fixture. -/
def respOk : GenResp := ⟨"end_turn", tagsOk⟩

/-- Truncated generation response fixture. -/
def respTrunc : GenResp := ⟨"max_tokens", tagsOk⟩

/-- Generation response fixture with unparseable confidence. -/
def respBadConf : GenResp := ⟨"end_turn", tagsBadConf⟩

/-- Patch environment where every external call succeeds. -/
def penvOk : PatchEnv :=
  ⟨Except.ok "OLD PROMPT", Except.ok respOk, Except.ok ⟨"sha1", "url1"⟩, Except.ok 41⟩

/-- Patch environment whose generation response is truncated. -/
def penvTrunc : PatchEnv :=
  ⟨Except.ok "OLD PROMPT", Except.ok respTrunc, Except.ok ⟨"sha1", "url1"⟩, Except.ok 41⟩

/-- Patch environment whose generation response has unparseable confidence. -/
def penvBadConf : PatchEnv :=
  ⟨Except.ok "OLD PROMPT", Except.ok respBadConf, Except.ok ⟨"sha1", "url1"⟩, Except.ok 41⟩

/-- The default settings of `app/config/settings.py`. -/
def settingsW : ReviewSettings := ⟨3, 24, 2⟩

/-- Cycle context fixture: empty revision table, all calls succeed. -/
def ctxW : Ctx := ⟨settingsW, "t1", 1000000, [], fun _ => penvOk⟩

/-- Cycle context fixture whose generation responses are truncated. -/
def ctxTrunc : Ctx := ⟨settingsW, "t1", 1000000, [], fun _ => penvTrunc⟩

/-- A non-rolled-back calendar revision created inside the cooldown window
of `ctxCool` (1000000 − 24·3600 = 913600 ≤ 999000). -/
def rowCool : RevisionRow := ⟨"t1", "calendar", 999000, false⟩

/-- Cycle context fixture whose revision table puts calendar on cooldown. -/
def ctxCool : Ctx := ⟨settingsW, "t1", 1000000, [rowCool], fun _ => penvOk⟩

/-- Loop state fixture already at the per-cycle cap of `settingsW`. -/
def stW3 : SelState := ⟨[], 3, [], [], [], 0⟩

/-- Issue list whose only issue belongs to an unknown agent. -/
def issuesC8 : List Issue := [issueGhost]

example : (parsePyFloat "0.8").isSome = true := by decide
example : parsePyFloat "abc" = none := by decide
example : (parsePyFloat "-1.5e2").isSome = true := by decide
example : parsePyFloat "1.2.3" = none := by decide
example : parsePyFloat "" = none := by decide
example : parsePyFloat "." = none := by decide
example : pyInStr "Router" "the ROUTER agent" = true := by decide
example : pyInStr "finance" "nothing here" = false := by decide
example : pyStrip "  true " = "true" := by decide
example :
    (processImprovements ctxW "fix the calendar agent" [issueCal, issueCal2]).attempted
      = ["calendar"] := by decide
example :
    (processImprovements ctxW "fix the calendar agent" [issueCal, issueCal2]).improvementsApplied
      = 1 := by decide
example :
    (processImprovements ctxCool "fix the calendar agent" [issueCal, issueCal2]).attempted
      = [] := by decide
example :
    (processImprovements ctxW "fix the finance agent" [issueHall]).attempted
      = ["finance"] := by decide
example :
    (processImprovements ctxW "fix the calendar agent" [issueCal]).attempted
      = [] := by decide
example :
    (fixSingleIssue "i1" (some issueCal) penvOk).isResolved = true := by decide
example :
    (fixSingleIssue "i1" (some issueNoAgent) penvOk).fixStatus = "failed" := by decide
example : extractAgentsFromProposals "x" issuesC8 = [] := by decide

/-- Helper: a successful patch (`Except.ok (some r)`) implies every effect
flag is set — the generation ran, the store write succeeded and the revision
row was inserted. -/
theorem improve_ok_some_effects (penv : PatchEnv) (a : String) (r : Revision)
    (h : (improveAgentPrompt penv a).2 = Except.ok (some r)) :
    (improveAgentPrompt penv a).1 = ⟨true, true, true, true⟩ := by
  unfold improveAgentPrompt at h ⊢
  repeat' split at h
  all_goals first | rfl | simp_all

/-- C1: invoking the fix-one-issue operation on a stored issue whose
agent-name field is NULL or empty terminates the operation in the failed
state carrying the descriptive "no associated agent" message (its error
channel as a background task), with no patch attempt, no generation request,
no document-store write and no PromptRevision row; no tracking cycle is even
created. -/
theorem fix_single_issue_no_agent (issueId : String) (issue : Issue) (penv : PatchEnv)
    (h : truthyOptStr issue.agentName = false) :
    fixSingleIssue issueId (some issue) penv =
      { fixStatus := "failed"
        fixError := some "Issue has no associated agent name"
        isResolved := issue.isResolved, resolvedBy := none
        cycleCreated := false, cycleStatus := none, cycleCounts := none
        genCalled := false, storeWriteAttempted := false
        storeWriteSucceeded := false, revisionInserted := false } := by
  unfold fixSingleIssue
  simp [h]

/-- Witness for C1 at an issue whose agent-name field is NULL. -/
theorem fix_single_issue_no_agent_witness :
    fixSingleIssue "abc" (some issueNoAgent) penvOk =
      { fixStatus := "failed"
        fixError := some "Issue has no associated agent name"
        isResolved := false, resolvedBy := none
        cycleCreated := false, cycleStatus := none, cycleCounts := none
        genCalled := false, storeWriteAttempted := false
        storeWriteSucceeded := false, revisionInserted := false } :=
  fix_single_issue_no_agent "abc" issueNoAgent penvOk (by decide)

/-- C6: a review cycle whose unresolved-issue fetch returns the empty list
terminates with status completed, zero issues analyzed, zero improvements
applied, no PromptRevision rows and no generation request, whatever the rest
of the environment would have delivered. -/
theorem run_review_empty_fetch (ctx : Ctx)
    (analysisOutcome : Except String (Option String)) :
    runReview ctx [] analysisOutcome =
      { status := "completed", issuesAnalyzedCount := some 0,
        improvementsAppliedCount := some 0, revisions := [], genRequests := 0 } :=
  rfl

/-- C9: the soft-error logger forces the persisted severity by category —
hallucination is always stored as high and misinterpretation as medium, no
matter what severity the caller supplied; in particular a hallucination can
never reach the store as critical through this operation. -/
theorem log_soft_error_severity (qaAnalysis qaSuggestion : String)
    (qaConfidence : Rat) (severity : String) :
    (logSoftError "hallucination" qaAnalysis qaSuggestion qaConfidence severity).severity
        = "high" ∧
    (logSoftError "misinterpretation" qaAnalysis qaSuggestion qaConfidence severity).severity
        = "medium" ∧
    (logSoftError "hallucination" qaAnalysis qaSuggestion qaConfidence severity).severity
        ≠ "critical" := by
  refine ⟨rfl, rfl, ?_⟩
  intro h
  simp [logSoftError] at h

/-- Helper: a patch attempt extends the attempted list by exactly its agent. -/
theorem attemptAgent_attempted (ctx : Ctx) (st : SelState) (a : String) :
    (attemptAgent ctx st a).attempted = st.attempted ++ [a] := by
  unfold attemptAgent
  rcases h : (improveAgentPrompt (ctx.patchEnv a) a).2 with e | o
  · simp [h]
  · cases o <;> simp [h]

/-- Helper: a patch attempt keeps the revision list aligned with the applied
counter and bumps the counter by at most one. -/
theorem attemptAgent_count (ctx : Ctx) (st : SelState) (a : String)
    (hlen : st.revisions.length = st.improvementsApplied) :
    (attemptAgent ctx st a).revisions.length = (attemptAgent ctx st a).improvementsApplied ∧
    (attemptAgent ctx st a).improvementsApplied ≤ st.improvementsApplied + 1 := by
  unfold attemptAgent
  rcases h : (improveAgentPrompt (ctx.patchEnv a) a).2 with e | o
  · simp [h, hlen]
  · cases o <;> simp [h, hlen]

/-- Helper: one loop iteration preserves the count invariant of
`_process_improvements` — revisions and counter agree and the counter never
exceeds the configured cap. -/
theorem processAgent_inv (ctx : Ctx) (st : SelState) (a : String) (is : List Issue)
    (hlen : st.revisions.length = st.improvementsApplied)
    (hle : st.improvementsApplied ≤ ctx.settings.qa_review_max_improvements) :
    (processAgent ctx st a is).revisions.length
        = (processAgent ctx st a is).improvementsApplied ∧
    (processAgent ctx st a is).improvementsApplied
        ≤ ctx.settings.qa_review_max_improvements := by
  unfold processAgent
  split_ifs with h1 h2 h3
  · exact ⟨hlen, hle⟩
  · exact ⟨hlen, hle⟩
  · exact ⟨hlen, hle⟩
  · obtain ⟨hc1, hc2⟩ := attemptAgent_count ctx st a hlen
    exact ⟨hc1, le_trans hc2 (Nat.succ_le_of_lt (Nat.lt_of_not_le h1))⟩

/-- Helper: the whole `_process_improvements` loop preserves the count
invariant. -/
theorem processAgents_inv (ctx : Ctx) (l : List (String × List Issue)) :
    ∀ st : SelState, st.revisions.length = st.improvementsApplied →
      st.improvementsApplied ≤ ctx.settings.qa_review_max_improvements →
      (processAgents ctx st l).revisions.length
          = (processAgents ctx st l).improvementsApplied ∧
      (processAgents ctx st l).improvementsApplied
          ≤ ctx.settings.qa_review_max_improvements := by
  induction l with
  | nil => intro st h1 h2; exact ⟨h1, h2⟩
  | cons p rest ih =>
    intro st h1 h2
    have h := processAgent_inv ctx st p.1 p.2 h1 h2
    exact ih _ h.1 h.2

/-- C2: whenever a cycle's improvements-applied count is recorded at
finalization, it is at most the configured per-cycle maximum, and the loop
stops selecting further agents as soon as the counter reaches that maximum
(one iteration at or past the cap changes nothing). -/
theorem improvements_applied_capped (ctx : Ctx) (issues : List Issue)
    (analysisOutcome : Except String (Option String)) (m : Nat)
    (h : (runReview ctx issues analysisOutcome).improvementsAppliedCount = some m) :
    m ≤ ctx.settings.qa_review_max_improvements ∧
    ∀ (st : SelState) (a : String) (is : List Issue),
      ctx.settings.qa_review_max_improvements ≤ st.improvementsApplied →
      processAgent ctx st a is = st := by
  constructor
  · cases issues with
    | nil =>
      simp [runReview] at h
      omega
    | cons i rest =>
      unfold runReview at h
      simp at h
      cases analysisOutcome with
      | error e => simp at h
      | ok af =>
        simp at h
        split at h
        · simp [initSelState] at h
          omega
        · have hinv := processAgents_inv ctx
            (extractAgentsFromProposals (af.getD "") (i :: rest)) initSelState rfl
            (Nat.zero_le _)
          rw [processImprovements] at h
          omega
  · intro st a is hge
    unfold processAgent
    rw [if_pos hge]

/-- Witness for C2: with default settings a completed empty-proposal cycle
records 0 ≤ 3, and an iteration at the cap leaves the state untouched. -/
theorem improvements_applied_capped_witness :
    0 ≤ ctxW.settings.qa_review_max_improvements ∧
    processAgent ctxW stW3 "calendar" [issueCal, issueCal2] = stW3 :=
  ⟨(improvements_applied_capped ctxW [issueCal] (Except.ok none) 0 rfl).1,
   (improvements_applied_capped ctxW [issueCal] (Except.ok none) 0 rfl).2
     stW3 "calendar" [issueCal, issueCal2] (by decide)⟩

/-- Helper: a matching non-rolled-back revision inside the window in the
start-of-cycle table makes the cooldown query positive against any extension
of that table. -/
theorem isOnCooldown_of_mem (db extra : List RevisionRow) (now : Int) (hours : Nat)
    (t a : String) (r : RevisionRow) (hr : r ∈ db) (h1 : r.tenantId = t)
    (h2 : r.agentName = a) (h3 : r.isRolledBack = false)
    (h4 : now - (hours : Int) * 3600 ≤ r.createdAt) :
    isOnCooldown (db ++ extra) now hours t a = true := by
  unfold isOnCooldown
  have hmem : r ∈ (db ++ extra).filter (fun r =>
      r.tenantId == t && r.agentName == a &&
      decide (now - (hours : Int) * 3600 ≤ r.createdAt) && r.isRolledBack == false) := by
    refine List.mem_filter.2 ⟨List.mem_append_left _ hr, ?_⟩
    simp [h1, h2, h3, h4]
  simpa using List.length_pos.2 (List.ne_nil_of_mem hmem)

/-- C3: an agent with a non-rolled-back revision for the cycle's tenant
created inside the cooldown window is skipped — its loop iteration changes
nothing, whatever its issue count or severities — and removing it from the
candidate list leaves the whole run, hence the gating of every other agent,
unchanged. -/
theorem cooldown_skips_agent (ctx : Ctx) (a : String) (r : RevisionRow)
    (hr : r ∈ ctx.db) (h1 : r.tenantId = ctx.tenantId) (h2 : r.agentName = a)
    (h3 : r.isRolledBack = false)
    (h4 : ctx.now - (ctx.settings.qa_review_cooldown_hours : Int) * 3600 ≤ r.createdAt) :
    (∀ (st : SelState) (is : List Issue), processAgent ctx st a is = st) ∧
    (∀ (st : SelState) (xs ys : List (String × List Issue)) (is : List Issue),
      processAgents ctx st (xs ++ (a, is) :: ys) = processAgents ctx st (xs ++ ys)) := by
  have hskip : ∀ (st : SelState) (is : List Issue), processAgent ctx st a is = st := by
    intro st is
    unfold processAgent
    split_ifs with hb hc hm
    · rfl
    · rfl
    · rfl
    · exact absurd (isOnCooldown_of_mem ctx.db st.newRows ctx.now
        ctx.settings.qa_review_cooldown_hours ctx.tenantId a r hr h1 h2 h3 h4) hc
  refine ⟨hskip, ?_⟩
  intro st xs ys is
  unfold processAgents
  rw [List.foldl_append, List.foldl_append, List.foldl_cons, hskip]

/-- Witness for C3 at the concrete on-cooldown context `ctxCool`. -/
theorem cooldown_skips_agent_witness :
    processAgent ctxCool initSelState "calendar" [issueCal, issueCal2] = initSelState ∧
    processAgents ctxCool initSelState
        [("calendar", [issueCal, issueCal2]), ("finance", [issueHall])]
      = processAgents ctxCool initSelState [("finance", [issueHall])] :=
  ⟨(cooldown_skips_agent ctxCool "calendar" rowCool (by decide) rfl rfl rfl
      (by decide)).1 initSelState [issueCal, issueCal2],
   (cooldown_skips_agent ctxCool "calendar" rowCool (by decide) rfl rfl rfl
      (by decide)).2 initSelState [] [("finance", [issueHall])] [issueCal, issueCal2]⟩

/-- C4: an agent whose issue count is below the configured minimum and none
of whose issues is a hallucination or critical is never patch-attempted — its
loop iteration changes nothing; and whenever at least one such issue exists,
the minimum-issue check is overridden: provided the other gates pass (budget
not reached, not on cooldown), the patch attempt proceeds. -/
theorem min_issues_gate (ctx : Ctx) :
    (∀ (st : SelState) (a : String) (is : List Issue),
      hasCriticalOverride is = false →
      is.length < ctx.settings.qa_review_min_issues →
      processAgent ctx st a is = st) ∧
    (∀ (st : SelState) (a : String) (is : List Issue),
      hasCriticalOverride is = true →
      st.improvementsApplied < ctx.settings.qa_review_max_improvements →
      isOnCooldown (ctx.db ++ st.newRows) ctx.now
          ctx.settings.qa_review_cooldown_hours ctx.tenantId a = false →
      (processAgent ctx st a is).attempted = st.attempted ++ [a]) := by
  constructor
  · intro st a is hcrit hlen
    unfold processAgent
    split_ifs with hb hc hm
    · rfl
    · rfl
    · rfl
    · exact absurd ⟨hlen, hcrit⟩ hm
  · intro st a is hcrit hbudget hcool
    unfold processAgent
    split_ifs with hb hc hm
    · exact absurd hb (Nat.not_le_of_lt hbudget)
    · rw [hcool] at hc; exact absurd hc (by simp)
    · rw [hcrit] at hm; exact absurd hm.2 (by simp)
    · exact attemptAgent_attempted ctx st a

/-- Witness for C4: one sub-threshold benign calendar issue is skipped; one
sub-threshold finance hallucination is attempted. -/
theorem min_issues_gate_witness :
    processAgent ctxW initSelState "calendar" [issueCal] = initSelState ∧
    (processAgent ctxW initSelState "finance" [issueHall]).attempted
      = initSelState.attempted ++ ["finance"] :=
  ⟨(min_issues_gate ctxW).1 initSelState "calendar" [issueCal] (by decide) (by decide),
   (min_issues_gate ctxW).2 initSelState "finance" [issueHall] (by decide) (by decide)
     (by decide)⟩

/-- C5: a generation response whose stop reason is the output-size bound
(`max_tokens`) is discarded before any parsing or commit — the attempt yields
no document-store write, no PromptRevision and no error; the loop counts the
agent as skipped (revisions, counter, writes and inserted rows unchanged);
and a cycle whose analysis stage succeeded still terminates with status
completed. -/
theorem truncated_response_discarded (penv : PatchEnv) (a : String) (resp : GenResp)
    (hg : penv.gen = Except.ok resp) (ht : resp.stopReason = "max_tokens") :
    (improveAgentPrompt penv a).2 = Except.ok none ∧
    (improveAgentPrompt penv a).1.storeWriteAttempted = false ∧
    (improveAgentPrompt penv a).1.revisionInserted = false ∧
    (∀ (ctx : Ctx) (st : SelState) (is : List Issue), ctx.patchEnv a = penv →
      (processAgent ctx st a is).revisions = st.revisions ∧
      (processAgent ctx st a is).improvementsApplied = st.improvementsApplied ∧
      (processAgent ctx st a is).writes = st.writes ∧
      (processAgent ctx st a is).newRows = st.newRows) ∧
    (∀ (ctx : Ctx) (issues : List Issue) (af : Option String),
      (runReview ctx issues (Except.ok af)).status = "completed") := by
  have himp : improveAgentPrompt penv a = (⟨penv.getPrompt.isOk, false, false, false⟩,
      Except.ok none) := by
    unfold improveAgentPrompt
    rcases hgp : penv.getPrompt with e | cur
    · simp [Except.isOk, Except.toBool]
    · rw [hg]
      simp [Except.isOk, Except.toBool, ht]
  refine ⟨by rw [himp], by rw [himp], by rw [himp], ?_, ?_⟩
  · intro ctx st is hpe
    unfold processAgent
    split_ifs with hb hc hm
    · exact ⟨rfl, rfl, rfl, rfl⟩
    · exact ⟨rfl, rfl, rfl, rfl⟩
    · exact ⟨rfl, rfl, rfl, rfl⟩
    · unfold attemptAgent
      rw [hpe, himp]
      simp
  · intro ctx issues af
    unfold runReview
    split
    · rfl
    · simp

/-- Witness for C5 at the concrete truncated environment `penvTrunc`. -/
theorem truncated_response_discarded_witness :
    (improveAgentPrompt penvTrunc "calendar").2 = Except.ok none ∧
    (processAgent ctxTrunc initSelState "calendar" [issueCal, issueCal2]).revisions
      = initSelState.revisions ∧
    (runReview ctxTrunc [issueCal, issueCal2] (Except.ok (some "calendar"))).status
      = "completed" :=
  ⟨(truncated_response_discarded penvTrunc "calendar" respTrunc rfl rfl).1,
   ((truncated_response_discarded penvTrunc "calendar" respTrunc rfl rfl).2.2.2.1
      ctxTrunc initSelState [issueCal, issueCal2] rfl).1,
   (truncated_response_discarded penvTrunc "calendar" respTrunc rfl rfl).2.2.2.2
      ctxTrunc [issueCal, issueCal2] (some "calendar")⟩

/-- C7: for a fetched, initially unresolved issue, the fix-one-issue
operation marks it resolved only on the path where the patch committed — the
document-store write succeeded and a PromptRevision row was stored — and on
every failure or no-modification path the issue stays unresolved. -/
theorem fix_resolves_only_after_commit (issueId : String) (row : Option Issue)
    (penv : PatchEnv) (hunres : ∀ i, row = some i → i.isResolved = false) :
    ((fixSingleIssue issueId row penv).isResolved = true →
      (fixSingleIssue issueId row penv).revisionInserted = true ∧
      (fixSingleIssue issueId row penv).storeWriteSucceeded = true ∧
      (fixSingleIssue issueId row penv).fixStatus = "completed") ∧
    ((fixSingleIssue issueId row penv).revisionInserted = false →
      (fixSingleIssue issueId row penv).isResolved = false) := by
  cases row with
  | none => exact ⟨fun h => by simp [fixSingleIssue] at h, fun _ => rfl⟩
  | some issue =>
    have hi : issue.isResolved = false := hunres issue rfl
    simp only [fixSingleIssue]
    split_ifs with hagent
    · exact ⟨fun h => by simp_all, fun _ => hi⟩
    · rcases hres : (improveAgentPrompt penv (issue.agentName.getD "")).2 with e | o
      · simp only [hres]
        exact ⟨fun h => by simp_all, fun _ => hi⟩
      · cases o with
        | none =>
          simp only [hres]
          exact ⟨fun h => by simp_all, fun _ => hi⟩
        | some r =>
          have heff := improve_ok_some_effects penv (issue.agentName.getD "") r hres
          simp only [hres]
          constructor
          · intro _
            simp [heff]
          · intro h
            rw [heff] at h
            simp at h

/-- Witness for C7: a successful concrete fix ends with the revision row
inserted, the store write succeeded and the fix completed. -/
theorem fix_resolves_only_after_commit_witness :
    (fixSingleIssue "i1" (some issueCal) penvOk).revisionInserted = true ∧
    (fixSingleIssue "i1" (some issueCal) penvOk).storeWriteSucceeded = true ∧
    (fixSingleIssue "i1" (some issueCal) penvOk).fixStatus = "completed" :=
  (fix_resolves_only_after_commit "i1" (some issueCal) penvOk
      (fun i h => by cases h; rfl)).1 (by decide)

/-- C10: a confidence tag whose inner text is present but not parseable as a
number makes the whole improvement parse return nothing — even with valid
should-modify and replacement-document tags alongside — so the patch attempt
ends inconclusively: no revision, no document-store write, no error raised. -/
theorem unparseable_confidence_inconclusive (tags : ImprovementResponseTags)
    (t : String) (penv : PatchEnv) (a : String) (resp : GenResp)
    (hc : tags.confidenceTag = some t) (hp : parsePyFloat (pyStrip t) = none)
    (hg : penv.gen = Except.ok resp) (hr : resp.tags = tags) :
    parseImprovementXml tags = none ∧
    (improveAgentPrompt penv a).2 = Except.ok none ∧
    (improveAgentPrompt penv a).1.storeWriteAttempted = false ∧
    (improveAgentPrompt penv a).1.revisionInserted = false := by
  have hparse : parseImprovementXml tags = none := by
    unfold parseImprovementXml
    cases hs : tags.shouldModifyTag with
    | none => rfl
    | some sm => simp [hc, hp]
  have himp : improveAgentPrompt penv a = (⟨penv.getPrompt.isOk, false, false, false⟩,
      Except.ok none) := by
    unfold improveAgentPrompt
    rcases hgp : penv.getPrompt with e | cur
    · simp [Except.isOk, Except.toBool]
    · rw [hg]
      by_cases hsr : resp.stopReason == "max_tokens"
      · simp [Except.isOk, Except.toBool, hsr]
      · simp [Except.isOk, Except.toBool, hsr, hr, hparse]
  exact ⟨hparse, by rw [himp], by rw [himp], by rw [himp]⟩

/-- Witness for C10 at a concrete response whose confidence text is "abc". -/
theorem unparseable_confidence_inconclusive_witness :
    parseImprovementXml tagsBadConf = none ∧
    (improveAgentPrompt penvBadConf "finance").2 = Except.ok none ∧
    (improveAgentPrompt penvBadConf "finance").1.storeWriteAttempted = false ∧
    (improveAgentPrompt penvBadConf "finance").1.revisionInserted = false :=
  unparseable_confidence_inconclusive tagsBadConf "abc" penvBadConf "finance"
    respBadConf rfl (by decide) rfl rfl

/-- Helper: group insertion never produces an empty grouping. -/
theorem insertIssue_ne_nil (acc : List (String × List Issue)) (a : String) (i : Issue) :
    insertIssue acc a i ≠ [] := by
  cases acc with
  | nil => simp [insertIssue]
  | cons p rest =>
    obtain ⟨k, grp⟩ := p
    unfold insertIssue
    split_ifs <;> simp

/-- Helper: every key of an extended grouping is the inserted key or an
existing key. -/
theorem insertIssue_fst_mem (acc : List (String × List Issue)) (a : String) (i : Issue)
    (p : String × List Issue) (hp : p ∈ insertIssue acc a i) :
    p.1 = a ∨ p.1 ∈ acc.map Prod.fst := by
  induction acc with
  | nil =>
    simp [insertIssue] at hp
    left
    rw [hp]
  | cons q rest ih =>
    obtain ⟨k, grp⟩ := q
    unfold insertIssue at hp
    split_ifs at hp with hk
    · rcases List.mem_cons.1 hp with h | h
      · left; rw [h, hk]
      · right; exact List.mem_cons_of_mem _ (List.mem_map_of_mem _ h)
    · rcases List.mem_cons.1 hp with h | h
      · right; rw [h]; exact List.mem_cons_self _ _
      · rcases ih h with h2 | h2
        · exact Or.inl h2
        · exact Or.inr (List.mem_cons_of_mem _ h2)

/-- Helper: one grouping step keeps every key inside the known agent set. -/
theorem byAgentStep_fst_known (acc : List (String × List Issue)) (i : Issue)
    (hacc : ∀ q ∈ acc, q.1 ∈ knownAgents) :
    ∀ p ∈ byAgentStep acc i, p.1 ∈ knownAgents := by
  intro p hp
  cases han : i.agentName with
  | none => simp only [byAgentStep, han] at hp; exact hacc p hp
  | some a =>
    simp only [byAgentStep, han] at hp
    split_ifs at hp with hcond
    · rcases insertIssue_fst_mem acc a i p hp with h | h
      · rw [h]; exact hcond.2
      · obtain ⟨q, hq, hq2⟩ := List.mem_map.1 h
        rw [← hq2]; exact hacc q hq
    · exact hacc p hp

/-- Helper: every key produced by the grouping stage is a known agent name. -/
theorem byAgent_fst_known (issues : List Issue) :
    ∀ p ∈ byAgent issues, p.1 ∈ knownAgents := by
  unfold byAgent
  have haux : ∀ (l : List Issue) (acc : List (String × List Issue)),
      (∀ q ∈ acc, q.1 ∈ knownAgents) → ∀ p ∈ l.foldl byAgentStep acc, p.1 ∈ knownAgents := by
    intro l
    induction l with
    | nil => intro acc hacc p hp; exact hacc p hp
    | cons j rest ih =>
      intro acc hacc p hp
      exact ih (byAgentStep acc j) (byAgentStep_fst_known acc j hacc) p hp
  exact haux issues [] (by simp)

/-- Helper: one grouping step keeps a non-empty grouping non-empty. -/
theorem byAgentStep_ne_nil (acc : List (String × List Issue)) (i : Issue)
    (hacc : acc ≠ []) : byAgentStep acc i ≠ [] := by
  cases han : i.agentName with
  | none => simp only [byAgentStep, han]; exact hacc
  | some a =>
    simp only [byAgentStep, han]
    split_ifs with hcond
    · exact insertIssue_ne_nil acc a i
    · exact hacc

/-- Helper: grouping a list that contains an issue attributed to a known
agent is non-empty. -/
theorem byAgent_ne_nil (issues : List Issue)
    (hex : ∃ i ∈ issues, ∃ a, i.agentName = some a ∧ a ≠ "" ∧ a ∈ knownAgents) :
    byAgent issues ≠ [] := by
  unfold byAgent
  have hne : ∀ (l : List Issue) (acc : List (String × List Issue)),
      acc ≠ [] → l.foldl byAgentStep acc ≠ [] := by
    intro l
    induction l with
    | nil => intro acc hacc; exact hacc
    | cons j rest ih =>
      intro acc hacc
      exact ih (byAgentStep acc j) (byAgentStep_ne_nil acc j hacc)
  have haux : ∀ (l : List Issue) (acc : List (String × List Issue)),
      (∃ i ∈ l, ∃ a, i.agentName = some a ∧ a ≠ "" ∧ a ∈ knownAgents) →
      l.foldl byAgentStep acc ≠ [] := by
    intro l
    induction l with
    | nil => intro acc hacc; simp at hacc
    | cons j rest ih =>
      intro acc hacc
      rcases hacc with ⟨i, hi, a, ha1, ha2, ha3⟩
      rcases List.mem_cons.1 hi with hij | hil
      · subst hij
        rw [List.foldl_cons]
        apply hne
        simp only [byAgentStep, ha1]
        rw [if_pos ⟨ha2, ha3⟩]
        exact insertIssue_ne_nil acc a i
      · exact ih (byAgentStep acc j) ⟨i, hil, a, ha1, ha2, ha3⟩
  exact haux issues [] hex

/-- C8 counterexample: a non-empty issue list whose only issue belongs to the
unknown agent "ghost", and a proposal text containing no known agent name —
the selector produces zero candidate agents even though issues exist,
refuting the claim's "never silently produces zero candidate agents when
issues exist". -/
theorem fallback_zero_candidates_counterexample :
    issuesC8 ≠ [] ∧ (∀ a ∈ knownAgents, pyInStr a "x" = false) ∧
    extractAgentsFromProposals "x" issuesC8 = [] :=
  ⟨by decide, by decide, by decide⟩

/-- C8 (amended): when no known agent's name occurs case-insensitively in the
proposal text, the selector returns all *known* agents that have issues, and
it produces at least one candidate whenever at least one issue is attributed
(with a truthy name) to a known agent. -/
theorem fallback_to_all_agents (proposals : String) (issues : List Issue)
    (h : ∀ a ∈ knownAgents, pyInStr a proposals = false) :
    extractAgentsFromProposals proposals issues = byAgent issues ∧
    ((∃ i ∈ issues, ∃ a, i.agentName = some a ∧ a ≠ "" ∧ a ∈ knownAgents) →
      extractAgentsFromProposals proposals issues ≠ []) := by
  have hfilter : (byAgent issues).filter (fun p => pyInStr p.1 proposals) = [] := by
    rw [List.filter_eq_nil_iff]
    intro p hp
    simp [h p.1 (byAgent_fst_known issues p hp)]
  have hmain : extractAgentsFromProposals proposals issues = byAgent issues := by
    simp only [extractAgentsFromProposals]
    rw [hfilter]
    cases hba : byAgent issues with
    | nil => simp
    | cons q rest => simp
  exact ⟨hmain, fun hex => hmain ▸ byAgent_ne_nil issues hex⟩

/-- Witness for the amended C8: a proposal text naming no agent falls back to
the grouped calendar issues, a non-empty candidate set. -/
theorem fallback_to_all_agents_witness :
    extractAgentsFromProposals "zzz" [issueCal] = byAgent [issueCal] ∧
    extractAgentsFromProposals "zzz" [issueCal] ≠ [] :=
  ⟨(fallback_to_all_agents "zzz" [issueCal] (by decide)).1,
   (fallback_to_all_agents "zzz" [issueCal] (by decide)).2
     ⟨issueCal, by decide, "calendar", rfl, by decide, by decide⟩⟩
